import Mathlib

/-!
# Verification of the retrieval-and-fusion engine (AI-Project / ai-service)

Shallow embedding of the plagiarism-detection core of the repository:

* `ai-service/tasks/plagiarism_tasks.py` — the `run_check` pipeline
  (FAISS candidate filtering, fusion scoring, incremental index update);
* `ai-service/backend/src/vector_index.py` — `VectorIndex` persistence and
  the `get_vector_index` singleton loader;
* `ai-service/fusion.py` — `predict_fused_score` and `HEURISTIC_WEIGHTS`;
* `ai-service/main.py` — `aggregate_chunk_probs`;
* `ai-service/ai_detector.py` — `chunk_text_words`.

Modelling conventions:

* Python floats are modelled as rationals (`ℚ`); clamping, min/max and the
  arithmetic of the scoring pipeline carry over verbatim.  One happy
  coincidence is noted where it matters: Python guards `1.0 / (1.0 + dist)`
  with a `try/except` returning `0.0`, and Lean's rational division by zero
  also yields `0`.
* External collaborators (the sentence-transformer encoder, FAISS ANN
  search, the SQL `submission → assignment` lookup, the AI detector, a
  trained fusion model) are parameters of a `RunEnv` record: the code under
  verification is everything *around* those calls.
* Python `dict`s keyed by submission id are association lists updated in
  place, preserving insertion order, exactly as CPython does.
* Python's truthiness tests on optional strings (`if assignment_id:`,
  `if not cand_assign:`) are made explicit: a value is falsy when it is
  absent (`none`) or the empty string.
-/

/-- Python's whitespace test for the characters that occur in this code
base (`str.split()` / `str.strip()` semantics on ASCII whitespace). -/
def pyIsSpace (c : Char) : Bool :=
  c = ' ' ∨ c = '\t' ∨ c = '\n' ∨ c = '\r'

/-- Helper for `pySplit`: walk the characters, accumulating the current word
(in reverse) and emitting it when whitespace or the end of input is hit. -/
def pySplitAux : List Char → List Char → List String
  | [], cur => if cur.isEmpty then [] else [String.mk cur.reverse]
  | c :: cs, cur =>
    if pyIsSpace c then
      if cur.isEmpty then pySplitAux cs []
      else String.mk cur.reverse :: pySplitAux cs []
    else pySplitAux cs (c :: cur)

/-- Python `text.split()`: split on whitespace runs, dropping empty pieces. -/
def pySplit (s : String) : List String := pySplitAux s.data []

/-- Python `text.strip()`: drop leading and trailing whitespace. -/
def pyStrip (s : String) : String :=
  String.mk (((s.data.dropWhile pyIsSpace).reverse.dropWhile pyIsSpace).reverse)

/-- Truthiness of a Python `str | None` value: `None` and `""` are falsy. -/
def optFalsy : Option String → Bool
  | none => true
  | some s => s.isEmpty

/-- Truthiness of an optional string argument (e.g. `if assignment_id:`). -/
def aidTruthy (a : Option String) : Bool := ! optFalsy a

/-- One row of the FAISS metadata array (`vi.meta`).  Each key of the Python
dict may be absent; a `None` row (`vi.meta[idx] or {}`) is the row with both
fields absent. -/
structure MetaEntry where
  submission_id : Option String
  assignment_id : Option String
deriving DecidableEq, Repr

/-- A vector of the index, one embedding row. -/
abbrev Vec := List ℚ

/-- The in-process state of the `VectorIndex` singleton: the FAISS index
(`self.index`, a flat list of vectors plus its dimension attribute `d`) and
the parallel metadata array (`self.meta`). -/
structure VIState where
  index : List Vec
  dim : ℕ
  meta : List MetaEntry
deriving DecidableEq, Repr

/-- Model of `meta.get("submission_id", f"id_{idx}")` — the submission id of a
metadata row, with the positional default used by `run_check`. -/
def sidOf (m : MetaEntry) (idx : ℕ) : String :=
  m.submission_id.getD ("id_" ++ toString idx)

/-- The effective assignment of a candidate row: the stored
`assignment_id`, falling back to the external `get_assignment_for_submission`
lookup when the stored value is falsy. -/
def effAssign (lookup : String → Option String) (m : MetaEntry) (sid : String) :
    Option String :=
  if optFalsy m.assignment_id then lookup sid else m.assignment_id

/-- Model of `sum(1 for m in (vi.meta or []) if (m or {}).get("assignment_id") == assignment_id)` —
the number of metadata rows stored for one assignment. -/
def countAssign (meta : List MetaEntry) (aid : String) : ℕ :=
  (meta.filter (fun m => m.assignment_id = some aid)).length

/-! ## Sorting (Python `sorted(..., reverse=True)`)

CPython's `sorted` is a stable sort; with `reverse=True` and a numeric key
it produces a weakly-descending list keeping equal-keyed elements in input
order.  We model it as a stable insertion sort. -/

/-- Insert `x` into a weakly-descending list, after all elements whose key is
at least `f x` (stability). -/
def insertDescBy {α : Type} (f : α → ℚ) (x : α) : List α → List α
  | [] => [x]
  | y :: ys => if f y ≥ f x then y :: insertDescBy f x ys else x :: y :: ys

/-- Stable sort into weakly-descending key order: Python
`sorted(l, key=f, reverse=True)`. -/
def sortDescBy {α : Type} (f : α → ℚ) (l : List α) : List α :=
  l.foldl (fun acc x => insertDescBy f x acc) []

/-! ## FAISS candidate filtering inside `run_check`
(`tasks/plagiarism_tasks.py`, lines 338–364) -/

/-- Lookup in the `best_by_sid` association list (a Python dict keyed by
submission id). -/
def lookupBest : List (String × ℚ) → String → Option ℚ
  | [], _ => none
  | p :: ps, s => if p.1 = s then some p.2 else lookupBest ps s

/-- Update step `if sid not in best_by_sid or sim > best_by_sid[sid]: best_by_sid[sid] = sim`:
insert a new key at the end (CPython dicts preserve insertion order) or
raise an existing key's score in place. -/
def updateBest (best : List (String × ℚ)) (sid : String) (sim : ℚ) :
    List (String × ℚ) :=
  match lookupBest best sid with
  | none => best ++ [(sid, sim)]
  | some old =>
    if sim > old then best.map (fun p => if p.1 = sid then (sid, sim) else p)
    else best

/-- The post-search filter of `run_check`: walk the raw ANN result pairs
`(dist, idx)`, skip out-of-range rows, exclude the querying submission,
filter to the query's assignment (with the external lookup fallback) when an
assignment id was given, map L2 distance to the similarity `1/(1+dist)`,
dedupe keeping the best similarity per submission, then rank by score and
keep the top `top_k`.

Python guards the division with `try/except` defaulting to `0.0`; rational
division by zero in Lean is also `0`, so the translation is direct. -/
def faissStep (lookup : String → Option String) (meta : List MetaEntry)
    (submission_id : String) (assignment_id : Option String)
    (best : List (String × ℚ)) (dp : ℚ × ℕ) : List (String × ℚ) :=
  match meta.get? dp.2 with
  | none => best
  | some m =>
    let sid := sidOf m dp.2
    if sid = submission_id then best
    else if aidTruthy assignment_id ∧
        effAssign lookup m sid ≠ assignment_id then best
    else updateBest best sid (1 / (1 + dp.1))

/-- See `faissStep` for one loop iteration; this builds `best_by_sid` over
all raw results, then ranks by score and keeps the top `top_k`. -/
def faissCandidates (lookup : String → Option String) (meta : List MetaEntry)
    (submission_id : String) (assignment_id : Option String)
    (results : List (ℚ × ℕ)) (top_k : ℕ) : List (String × ℚ) :=
  let best := results.foldl (faissStep lookup meta submission_id assignment_id) []
  (sortDescBy Prod.snd best).take top_k

/-! ## Fusion scoring (`fusion.py`) -/

/-- The fixed heuristic weights of `fusion.py` (`HEURISTIC_WEIGHTS`):
faiss 0.5, bm25 0.25, cross 0.15, lex 0.05, ai penalty −0.2. -/
structure HeuristicWeights where
  faiss : ℚ
  bm25 : ℚ
  cross : ℚ
  lex : ℚ
  ai_penalty : ℚ
deriving DecidableEq, Repr

/-- Constant `HEURISTIC_WEIGHTS` from `fusion.py`. -/
def HEURISTIC_WEIGHTS : HeuristicWeights :=
  { faiss := 1/2, bm25 := 1/4, cross := 3/20, lex := 1/20, ai_penalty := -(1/5) }

/-- Function `predict_fused_score(features)` from `fusion.py`.  A loaded trained
model (together with its scaler and the probability/decision-score paths) is
abstracted as an external function producing the probability that the code
then clamps; `none` is the no-model (or model-load/predict failure) case,
which runs the heuristic weighted combination and clamps to `[0,1]`.
The source indexes `features[0] … features[4]`; callers always pass five
features. -/
def predict_fused_score (fusionModel : Option (List ℚ → ℚ))
    (features : List ℚ) : ℚ :=
  match fusionModel with
  | some m => max 0 (min 1 (m features))
  | none =>
    let w := HEURISTIC_WEIGHTS
    let score := w.faiss * features.getD 0 0 + w.bm25 * features.getD 1 0 +
      w.cross * features.getD 2 0 + w.lex * features.getD 3 0
    let score := score + w.ai_penalty * features.getD 4 0
    max 0 (min 1 score)

/-- Step 4 of `run_check` (fusion scoring, lines 397–407): for each
candidate, in descending raw-score order and limited to `top_k`, build the
feature vector `[faiss, faiss, 0, faiss, ai_prob]`, fuse, and apply
`sim_final = float(fused or faiss_score)` — i.e. fall back to the raw FAISS
score when the fused score is (falsy) zero.  Returns the `matches` list in
that traversal order and the running maximum `best_similarity`. -/
def simFinal (fusionModel : Option (List ℚ → ℚ)) (ai_prob faiss_score : ℚ) : ℚ :=
  let fused := predict_fused_score fusionModel
    [faiss_score, faiss_score, 0, faiss_score, ai_prob]
  if fused ≠ 0 then fused else faiss_score

/-- See `simFinal` for the per-candidate score; this runs the fusion loop,
accumulating the `matches` list in traversal order and `best_similarity` as
a running maximum (both initialised to `[], 0.0`). -/
def fuseStage (fusionModel : Option (List ℚ → ℚ))
    (candidates : List (String × ℚ)) (ai_prob : ℚ) (top_k : ℕ) :
    List (String × ℚ) × ℚ :=
  if candidates.isEmpty then ([], 0)
  else
    ((sortDescBy Prod.snd candidates).take top_k).foldl
      (fun acc c =>
        let sim_final := simFinal fusionModel ai_prob c.2
        (acc.1 ++ [(c.1, sim_final)], max acc.2 sim_final))
      ([], 0)

/-! ## Word chunkers -/

/-- Loop body of `_chunk_text` inside `run_check` (lines 421–439), phrased
on the suffix of the word list that starts at the loop index `i`.  The loop
appends the joined window when its strip is non-empty, breaks when
`i + size_w >= n`, and otherwise advances by `max(1, size_w - overlap_w)`
(the clamped, always-positive step).  The fuel argument bounds the number of
iterations; `ws.length` fuel always suffices because the step is ≥ 1. -/
def chunkPTLoop (size_w overlap_w : ℕ) : ℕ → List String → List String
  | 0, _ => []
  | _, [] => []
  | fuel + 1, ws =>
    let chunk := " ".intercalate (ws.take size_w)
    let rest :=
      if size_w ≥ ws.length then []
      else chunkPTLoop size_w overlap_w fuel (ws.drop (max 1 (size_w - overlap_w)))
    if pyStrip chunk ≠ "" then chunk :: rest else rest

/-- Function `_chunk_text(t, size_w, overlap_w)` from `run_check`'s incremental-update
step: simple word chunking with clamped positive step.  (The in-process
chunk cache keyed by `hash(t)` is a pure memoisation of this function and is
not modelled.) -/
def chunkTextPT (t : String) (size_w overlap_w : ℕ) : List String :=
  let words := pySplit t
  chunkPTLoop size_w overlap_w words.length words

/-- Truncate-or-zero-pad a vector to the index dimension `d` — the
dimension-adaptation shim of `run_check` (applied row-wise; a NumPy matrix
has uniform row length, so adapting each row individually coincides with the
source's single shape test). -/
def adaptDim (d : ℕ) (v : Vec) : Vec :=
  if v.length ≠ d then
    if v.length > d then v.take d else v ++ List.replicate (d - v.length) 0
  else v

/-! ## The `run_check` pipeline (`tasks/plagiarism_tasks.py`) -/

/-- The external collaborators consumed by `run_check`, abstracted as pure
functions (spec §6): the sentence-transformer encoder, L2 normalisation
(`faiss.normalize_L2`), the ANN search over the stored vectors, the DB
`submission → assignment` lookup, the AI detector, an optionally loaded
fusion model, and the chunking configuration read from the environment
(`CHUNK_SIZE_WORDS` / `CHUNK_OVERLAP_WORDS`, defaults 250 / 50). -/
structure RunEnv where
  embed : String → Vec
  normalize : Vec → Vec
  annSearch : List Vec → Vec → ℕ → List (ℚ × ℕ)
  lookupAssign : String → Option String
  detectAI : String → ℚ
  fusionModel : Option (List ℚ → ℚ)
  chunkSizeWords : ℕ
  chunkOverlapWords : ℕ

/-- The result dict returned by `run_check`. -/
structure RunResult where
  similarity_score : ℚ
  ai_probability : ℚ
  «matches» : List (String × ℚ)
deriving DecidableEq, Repr

/-- Observable retrieval actions of one `run_check` call: the raw ANN search
(with the breadth it requested) and the BM25 per-assignment corpus probe of
the fallback stage.  The S3 brute-force scan is disabled in the source and
has no event. -/
inductive RetrievalEvent
  | vectorSearch (search_k : ℕ)
  | bm25Lookup (assignment_id : String)
deriving DecidableEq, Repr

/-- The all-zero result (`{"similarity_score": 0.0, "ai_probability": 0.0,
"matches": []}`). -/
def zeroResult : RunResult :=
  { similarity_score := 0, ai_probability := 0, «matches» := [] }

/-- Step 5 of `run_check` (incremental index update, lines 414–488): if the
submission id is not already present in the metadata, chunk the text, encode
each chunk, normalise, adapt the dimension, append the vectors to the index
and one metadata row per chunk.  (`vi_upd.save()` and the `SubmissionChunk`
DB mirror are external persistence effects of the same data.) -/
def incrementalUpdate (env : RunEnv) (st : VIState)
    (submission_id assignment_id : String) (text : String) : VIState :=
  let already := st.meta.any (fun m => m.submission_id = some submission_id)
  if already then st
  else
    let chunks := chunkTextPT text env.chunkSizeWords env.chunkOverlapWords
    let vecs := chunks.map (fun c => adaptDim st.dim (env.normalize (env.embed c)))
    { index := st.index ++ vecs
      dim := st.dim
      meta := st.meta ++ chunks.map (fun _ =>
        { submission_id := some submission_id
          assignment_id := some assignment_id }) }

/-- Function `run_check(submission_id, assignment_id, text_content, file_url, top_k)`
from `tasks/plagiarism_tasks.py`, over the text produced by `ensure_text`
(the HTTP/S3 fetch and PDF extraction are external IO).  Returns the result
dict, the updated index state, and the trace of retrieval events.

Stage by stage, following the source:
1. empty text after extraction → all-zero result, nothing else runs;
2. AI probability from the external detector;
3. FAISS search — skipped entirely when the metadata array is empty
   (falsy) or the assignment has zero indexed entries; otherwise the query
   is encoded, normalised, dimension-adapted, searched with the
   breadth-expanded `search_k`, and filtered by `faissCandidates`;
4. BM25 fallback — reached only when there are no candidates and an
   assignment id was given; the source only probes for a per-assignment
   corpus and never scores, so it contributes an event and no candidates;
5. fusion scoring (`fuseStage`);
6. incremental index update (only when an assignment id was given). -/
def run_check (env : RunEnv) (st : VIState) (submission_id : String)
    (assignment_id : Option String) (text : String) (top_k : ℕ) :
    RunResult × VIState × List RetrievalEvent :=
  if pyStrip text = "" then (zeroResult, st, [])
  else
    let ai_prob := env.detectAI text
    let faiss :=
      if st.meta.isEmpty then ([], [])
      else if aidTruthy assignment_id ∧
          countAssign st.meta ((assignment_id).getD "") = 0 then ([], [])
      else
        let q := adaptDim st.dim (env.normalize (env.embed text))
        let total_meta := st.meta.length
        let assign_cnt :=
          if aidTruthy assignment_id then countAssign st.meta ((assignment_id).getD "")
          else 0
        let search_k := min (max (max (top_k * 50) 200) (assign_cnt * 50)) total_meta
        let results := env.annSearch st.index q search_k
        (faissCandidates env.lookupAssign st.meta submission_id assignment_id
          results top_k,
         [RetrievalEvent.vectorSearch search_k])
    let candidates := faiss.1
    let bm25Events :=
      if candidates.isEmpty ∧ aidTruthy assignment_id then
        [RetrievalEvent.bm25Lookup ((assignment_id).getD "")]
      else []
    let fused := fuseStage env.fusionModel candidates ai_prob top_k
    let st' :=
      if aidTruthy assignment_id then
        incrementalUpdate env st submission_id ((assignment_id).getD "") text
      else st
    ({ similarity_score := fused.2, ai_probability := ai_prob,
       «matches» := fused.1 },
     st', faiss.2 ++ bm25Events)

/-! ## Persistence (`backend/src/vector_index.py`) -/

/-- A persisted artefact on disk: absent (`none`), present but unreadable
(`some none` — `faiss.read_index` / `pickle.load` raises), or present and
valid. -/
abbrev PersistedFile (α : Type) := Option (Option α)

/-- The on-disk state read by `VectorIndex.load`: the FAISS index file at
`index_path` (vectors plus dimension) and the metadata pickle at
`meta_path`. -/
structure DiskState where
  indexFile : PersistedFile (List Vec × ℕ)
  metaFile : PersistedFile (List MetaEntry)
deriving DecidableEq, Repr

/-- The errors `VectorIndex.load` can raise: the `FileNotFoundError` of the
`else` branch, and any other exception escaping `faiss.read_index` or
`pickle.load` (corrupt persisted state). -/
inductive LoadError
  | fileNotFound
  | readFailure
deriving DecidableEq, Repr

/-- Method `VectorIndex.load()` (lines 164–178): when both paths exist, read the
index and the metadata (raising on a corrupt file); otherwise raise
`FileNotFoundError` — also when exactly one of the two files exists. -/
def VectorIndex.load (fs : DiskState) : Except LoadError VIState :=
  match fs.indexFile, fs.metaFile with
  | some idx, some meta =>
    match idx, meta with
    | some i, some m => Except.ok { index := i.1, dim := i.2, meta := m }
    | _, _ => Except.error LoadError.readFailure
  | _, _ => Except.error LoadError.fileNotFound

/-- Method `VectorIndex.save()`: serialise index and metadata together. -/
def VectorIndex.save (st : VIState) : DiskState :=
  { indexFile := some (some (st.index, st.dim)),
    metaFile := some (some st.meta) }

/-- Loader `get_vector_index()` (lines 207–236): try `load()`; on
`FileNotFoundError` recover by initialising an empty index whose dimension
is taken from a single probe encoding (`model.encode(["init"])`) and
persisting it; any other load exception propagates.  Returns the served
state together with the resulting disk state. -/
def get_vector_index (fs : DiskState) (probeDim : ℕ) :
    Except LoadError (VIState × DiskState) :=
  match VectorIndex.load fs with
  | Except.ok st => Except.ok (st, fs)
  | Except.error LoadError.fileNotFound =>
    let empty : VIState := { index := [], dim := probeDim, meta := [] }
    Except.ok (empty, VectorIndex.save empty)
  | Except.error e => Except.error e

/-- Method `VectorIndex.build_index(vectors, metadata)`: normalise and store the
given vectors (normalisation is the external `faiss.normalize_L2`) and take
the metadata array as-is. -/
def build_index (normalize : Vec → Vec) (vectors : List Vec) (dim : ℕ)
    (metadata : List MetaEntry) : VIState :=
  { index := vectors.map normalize, dim := dim, meta := metadata }

/-! ## Chunk-probability aggregation (`main.py`, `aggregate_chunk_probs`) -/

/-- The loop `prod = 1.0; for p in top: prod *= (1.0 - p)`. -/
def noisyOrProd (top : List ℚ) : ℚ := top.foldl (fun prod p => prod * (1 - p)) 1

/-- Function `aggregate_chunk_probs(chunk_probs, weights=None, top_k=3)` from
`main.py` (lines 337–347): default unit weights, multiply each probability
by its weight, sort descending, keep the `top_k` largest, and return
`1 − Π (1 − p)` over them. -/
def aggregate_chunk_probs (chunk_probs : List ℚ) (weights : Option (List ℚ))
    (top_k : ℕ) : ℚ :=
  if chunk_probs.isEmpty then 0
  else
    let ws := weights.getD (List.replicate chunk_probs.length 1)
    let weighted := sortDescBy id ((chunk_probs.zip ws).map (fun pw => pw.1 * pw.2))
    let top := weighted.take top_k
    1 - noisyOrProd top

/-! ## `chunk_text_words` (`ai_detector.py`, lines 135–149)

The word-level chunker of the AI detector advances its loop index by the
*unguarded* step `chunk_size - overlap`; the loop diverges when that step is
not positive.  We embed the loop with explicit fuel: `none` means the fuel
ran out while the loop guard `i < n` still held, so the genuine function is
the one obtained at any sufficient fuel.  The index is an integer because
the Python step may be negative. -/

/-- One Python slice `words[i : i + chunk_size]` (for the nonnegative
indices this loop reaches; a negative start behaves as Python's wraparound
clamped at zero). -/
def pySliceFrom (words : List String) (i : ℤ) (len : ℕ) : List String :=
  if i < 0 then
    (words.drop (words.length - (-i).toNat)).take len
  else (words.drop i.toNat).take len

/-- The `while i < n` loop of `chunk_text_words`: append the joined window,
then `i += (chunk_size - overlap)` with no clamp. -/
def chunkWordsLoop (words : List String) (chunk_size overlap : ℤ) :
    ℤ → ℕ → Option (List String)
  | i, 0 => if i < (words.length : ℤ) then none else some []
  | i, fuel + 1 =>
    if i < (words.length : ℤ) then
      (chunkWordsLoop words chunk_size overlap (i + (chunk_size - overlap)) fuel).map
        (fun rest =>
          " ".intercalate (pySliceFrom words i chunk_size.toNat) :: rest)
    else some []

/-- Function `chunk_text_words(text, chunk_size, overlap)` with explicit fuel:
`words = text.split()`; empty input returns `[]`; otherwise run the loop
from `i = 0`. -/
def chunk_text_words (text : String) (chunk_size overlap : ℤ) (fuel : ℕ) :
    Option (List String) :=
  let words := pySplit text
  if words.isEmpty then some []
  else chunkWordsLoop words chunk_size overlap 0 fuel

/-- The property C1 asserts of every submission id the FAISS filter lets
through: it is not the querying submission, and it entered through a
metadata row whose effective assignment is exactly the query's. -/
def scopedSid (lookup : String → Option String) (meta : List MetaEntry)
    (submission_id : String) (assignment_id : Option String) (s : String) :
    Prop :=
  s ≠ submission_id ∧
  (aidTruthy assignment_id = true →
    ∃ i m, meta.get? i = some m ∧ sidOf m i = s ∧
      effAssign lookup m s = assignment_id)

/-- Executable check that the metadata array assigns one consistent
effective assignment per submission id (rows sharing a submission id agree
on their stored-or-looked-up assignment). -/
def consistentMeta (lookup : String → Option String) (meta : List MetaEntry) :
    Bool :=
  meta.enum.all fun pi => meta.enum.all fun pj =>
    sidOf pi.2 pi.1 ≠ sidOf pj.2 pj.1 ∨
      effAssign lookup pi.2 (sidOf pi.2 pi.1) =
        effAssign lookup pj.2 (sidOf pj.2 pj.1)

/-- A concrete environment used by the witnesses: a one-dimensional
embedder, identity normalisation, an ANN search returning nothing, no DB
lookup, a zero AI detector, no trained fusion model, and the default
chunking configuration. -/
def exEnv : RunEnv :=
  { embed := fun _ => [1]
    normalize := fun v => v
    annSearch := fun _ _ _ => []
    lookupAssign := fun _ => none
    detectAI := fun _ => 0
    fusionModel := none
    chunkSizeWords := 250
    chunkOverlapWords := 50 }

/-- Environment for the C7 counterexample: the ANN search returns two rows,
at distances `19/6` (row 0, similarity `0.24`) and `37/13` (row 1,
similarity `0.26`), and the AI detector reports probability 1. -/
def cexEnv : RunEnv :=
  { embed := fun _ => [1]
    normalize := fun v => v
    annSearch := fun _ _ _ => [(19/6, 0), (37/13, 1)]
    lookupAssign := fun _ => none
    detectAI := fun _ => 1
    fusionModel := none
    chunkSizeWords := 250
    chunkOverlapWords := 50 }

/-- Index state for the C7 counterexample: two stored submissions of
assignment `"A"`. -/
def cexSt : VIState :=
  { index := [[1], [1]], dim := 1
    meta := [⟨some "a", some "A"⟩, ⟨some "b", some "A"⟩] }

/-! ## Theorems -/

theorem zipReplicateOne_map (l : List ℚ) :
    (l.zip (List.replicate l.length (1 : ℚ))).map (fun pw => pw.1 * pw.2) = l := by
  induction l with
  | nil => rfl
  | cons x xs ih => simp [List.replicate_succ, ih]

/-- C4: with no trained fusion model, the fused score of a 5-feature vector
`[f0, f1, f2, f3, f4]` is the fixed weighted combination
`0.5·f0 + 0.25·f1 + 0.15·f2 + 0.05·f3 − 0.2·f4` clamped to `[0,1]`; in
particular `[1,1,1,1,0]` scores `0.95` and `[0,0,0,0,1]` scores `0`. -/
theorem predict_fused_score_heuristic (f0 f1 f2 f3 f4 : ℚ) :
    predict_fused_score none [f0, f1, f2, f3, f4] =
      max 0 (min 1 (1/2 * f0 + 1/4 * f1 + 3/20 * f2 + 1/20 * f3 - 1/5 * f4)) ∧
    predict_fused_score none [1, 1, 1, 1, 0] = 19/20 ∧
    predict_fused_score none [0, 0, 0, 0, 1] = 0 := by
  refine ⟨?_, ?_, ?_⟩ <;>
    simp only [predict_fused_score, HEURISTIC_WEIGHTS, List.getD, List.get?,
      Option.getD] <;> norm_num
  ring_nf

/-- C5: for a non-empty list of per-chunk AI probabilities and default unit
weights, the document-level AI probability is the noisy-OR
`1 − Π (1 − p)` over the `top_k` highest per-chunk probabilities; in
particular `[0.9, 0.9, 0.1]` with `top_k = 3` aggregates to `0.991`, which
is not the mean `0.6333…`. -/
theorem aggregate_chunk_probs_noisy_or (l : List ℚ) (k : ℕ) (h : l ≠ []) :
    aggregate_chunk_probs l none k = 1 - noisyOrProd ((sortDescBy id l).take k) ∧
    aggregate_chunk_probs [9/10, 9/10, 1/10] none 3 = 991/1000 ∧
    aggregate_chunk_probs [9/10, 9/10, 1/10] none 3 ≠ (9/10 + 9/10 + 1/10) / 3 := by
  refine ⟨?_, ?_, ?_⟩
  · simp only [aggregate_chunk_probs, List.isEmpty_iff, h, if_false,
      Option.getD, zipReplicateOne_map]
  · simp only [aggregate_chunk_probs, sortDescBy, insertDescBy, noisyOrProd,
      List.foldl, List.isEmpty_cons, if_false, Option.getD, zipReplicateOne_map]
    norm_num [insertDescBy, noisyOrProd]
  · simp only [aggregate_chunk_probs, sortDescBy, insertDescBy, noisyOrProd,
      List.foldl, List.isEmpty_cons, if_false, Option.getD, zipReplicateOne_map]
    norm_num [insertDescBy, noisyOrProd]

/-- Witness for `aggregate_chunk_probs_noisy_or` at the non-empty list
`[0.9, 0.9, 0.1]`. -/
theorem aggregate_chunk_probs_noisy_or_witness :
    aggregate_chunk_probs [9/10, 9/10, 1/10] none 3 =
      1 - noisyOrProd ((sortDescBy id [9/10, 9/10, 1/10]).take 3) :=
  (aggregate_chunk_probs_noisy_or [9/10, 9/10, 1/10] 3 (by simp)).1

theorem mem_insertDescBy {α : Type} (f : α → ℚ) (a : α) (l : List α) (x : α)
    (hx : x ∈ insertDescBy f a l) : x = a ∨ x ∈ l := by
  induction l with
  | nil => simpa [insertDescBy] using hx
  | cons y ys ih =>
    simp only [insertDescBy] at hx
    by_cases h : f y ≥ f a
    · rw [if_pos h] at hx
      rcases List.mem_cons.mp hx with h1 | h2
      · right; exact List.mem_cons.mpr (Or.inl h1)
      · rcases ih h2 with h3 | h4
        · exact Or.inl h3
        · right; exact List.mem_cons.mpr (Or.inr h4)
    · rw [if_neg h] at hx
      rcases List.mem_cons.mp hx with h1 | h2
      · exact Or.inl h1
      · exact Or.inr h2

theorem mem_foldl_insertDescBy {α : Type} (f : α → ℚ) (x : α) :
    ∀ (l acc : List α),
      x ∈ l.foldl (fun acc y => insertDescBy f y acc) acc → x ∈ acc ∨ x ∈ l := by
  intro l
  induction l with
  | nil => intro acc h; exact Or.inl h
  | cons y ys ih =>
    intro acc h
    rcases ih (insertDescBy f y acc) h with h1 | h2
    · rcases mem_insertDescBy f y acc x h1 with h3 | h4
      · right; exact List.mem_cons.mpr (Or.inl h3)
      · exact Or.inl h4
    · right; exact List.mem_cons.mpr (Or.inr h2)

theorem mem_sortDescBy {α : Type} (f : α → ℚ) (l : List α) (x : α)
    (hx : x ∈ sortDescBy f l) : x ∈ l := by
  rcases mem_foldl_insertDescBy f x l [] (by simpa [sortDescBy] using hx) with h1 | h2
  · simp at h1
  · exact h2

theorem mem_updateBest (best : List (String × ℚ)) (sid : String) (sim : ℚ)
    (c : String × ℚ) (hc : c ∈ updateBest best sid sim) :
    c.1 = sid ∨ c ∈ best := by
  cases h : lookupBest best sid with
  | none =>
    simp only [updateBest, h] at hc
    rcases List.mem_append.mp hc with h1 | h2
    · exact Or.inr h1
    · simp at h2; left; simp [h2]
  | some old =>
    simp only [updateBest, h] at hc
    by_cases hgt : sim > old
    · rw [if_pos hgt] at hc
      rcases List.mem_map.mp hc with ⟨p, hp, hpc⟩
      by_cases hps : p.1 = sid
      · rw [if_pos hps] at hpc; left; simp [← hpc]
      · rw [if_neg hps] at hpc; right; rwa [← hpc]
    · rw [if_neg hgt] at hc
      exact Or.inr hc


theorem faissStep_scoped (lookup : String → Option String)
    (meta : List MetaEntry) (subId : String) (aid : Option String)
    (best : List (String × ℚ)) (dp : ℚ × ℕ)
    (hbest : ∀ c ∈ best, scopedSid lookup meta subId aid c.1) :
    ∀ c ∈ faissStep lookup meta subId aid best dp,
      scopedSid lookup meta subId aid c.1 := by
  intro c hc
  cases hm : meta.get? dp.2 with
  | none =>
    simp only [faissStep, hm] at hc
    exact hbest c hc
  | some m =>
    simp only [faissStep, hm] at hc
    by_cases hself : sidOf m dp.2 = subId
    · rw [if_pos hself] at hc; exact hbest c hc
    · rw [if_neg hself] at hc
      by_cases hfilter : aidTruthy aid = true ∧
          effAssign lookup m (sidOf m dp.2) ≠ aid
      · rw [if_pos hfilter] at hc; exact hbest c hc
      · rw [if_neg hfilter] at hc
        rcases mem_updateBest _ _ _ c hc with h1 | h2
        · rw [h1]
          refine ⟨hself, fun htruthy => ⟨dp.2, m, hm, rfl, ?_⟩⟩
          by_contra hne
          exact hfilter ⟨htruthy, hne⟩
        · exact hbest c h2

theorem faissFold_scoped (lookup : String → Option String)
    (meta : List MetaEntry) (subId : String) (aid : Option String) :
    ∀ (results : List (ℚ × ℕ)) (best : List (String × ℚ)),
      (∀ c ∈ best, scopedSid lookup meta subId aid c.1) →
      ∀ c ∈ results.foldl (faissStep lookup meta subId aid) best,
        scopedSid lookup meta subId aid c.1 := by
  intro results
  induction results with
  | nil => intro best hbest c hc; exact hbest c hc
  | cons r rs ih =>
    intro best hbest c hc
    exact ih _ (faissStep_scoped lookup meta subId aid best r hbest) c hc


theorem aidTruthy_some {aid : String} (h : aid ≠ "") :
    aidTruthy (some aid) = true := by
  simp only [aidTruthy, optFalsy, Bool.not_eq_true']
  cases he : aid.isEmpty
  · rfl
  · exact absurd ((String.isEmpty_iff aid).mp (by simp [he])) h

theorem consistentMeta_spec (lookup : String → Option String)
    (meta : List MetaEntry) (h : consistentMeta lookup meta = true) :
    ∀ i j mi mj, meta.get? i = some mi → meta.get? j = some mj →
      sidOf mi i = sidOf mj j →
      effAssign lookup mi (sidOf mi i) = effAssign lookup mj (sidOf mj j) := by
  intro i j mi mj hi hj hs
  have hmi : (i, mi) ∈ meta.enum := by
    rw [List.mk_mem_enum_iff_getElem?, ← List.get?_eq_getElem?]
    exact hi
  have hmj : (j, mj) ∈ meta.enum := by
    rw [List.mk_mem_enum_iff_getElem?, ← List.get?_eq_getElem?]
    exact hj
  have h1 := List.all_eq_true.mp (List.all_eq_true.mp h (i, mi) hmi) (j, mj) hmj
  simp only [decide_eq_true_eq] at h1
  rcases h1 with h2 | h3
  · exact absurd hs h2
  · exact h3

/-- C1: for an assignment-scoped vector search inside `run_check` (query
submission `subId`, non-empty assignment id `aid`), the candidate list
produced by the post-search filter never contains `subId` itself, and —
provided the metadata is consistent per submission id — never contains a
submission whose stored assignment id (or, when metadata lacks it, the
externally looked-up assignment id) differs from `aid`. -/
theorem run_check_faiss_candidates_scoped (lookup : String → Option String)
    (meta : List MetaEntry) (subId aid : String) (results : List (ℚ × ℕ))
    (top_k : ℕ) (haid : aid ≠ "") (hcons : consistentMeta lookup meta = true) :
    ∀ c ∈ faissCandidates lookup meta subId (some aid) results top_k,
      c.1 ≠ subId ∧
      ∀ i m, meta.get? i = some m → sidOf m i = c.1 →
        effAssign lookup m c.1 = some aid := by
  intro c hc
  simp only [faissCandidates] at hc
  have hfold : c ∈ results.foldl (faissStep lookup meta subId (some aid)) [] :=
    mem_sortDescBy Prod.snd _ c (List.mem_of_mem_take hc)
  have hscoped := faissFold_scoped lookup meta subId (some aid) results []
    (by intro c hc; simp at hc) c hfold
  obtain ⟨hne, hex⟩ := hscoped
  obtain ⟨i0, m0, h0, hs0, he0⟩ := hex (aidTruthy_some haid)
  refine ⟨hne, fun i m hi hsi => ?_⟩
  have hagree := consistentMeta_spec lookup meta hcons i i0 m m0 hi h0
    (by rw [hsi, hs0])
  rw [hsi, hs0] at hagree
  rw [hagree]
  exact he0

/-- Witness for `run_check_faiss_candidates_scoped`: a concrete search over
a one-row metadata array for assignment `"A"`, querying submission `"q"`,
whose single candidate `("a", 1)` is not the querying submission. -/
theorem run_check_faiss_candidates_scoped_witness :
    (("A" : String) ≠ "" ∧
      consistentMeta (fun _ => none) [⟨some "a", some "A"⟩] = true) ∧
    ("a", (1 : ℚ)).1 ≠ "q" :=
  ⟨⟨by decide, by decide⟩,
    (run_check_faiss_candidates_scoped (fun _ => none) [⟨some "a", some "A"⟩]
      "q" "A" [((0 : ℚ), 0)] 5 (by decide) (by decide) ("a", 1)
      (by simp [faissCandidates, faissStep, updateBest, lookupBest, sortDescBy,
        insertDescBy, sidOf, effAssign, optFalsy, aidTruthy])).1⟩

theorem incrementalUpdate_already (env : RunEnv) (st : VIState) (s a t : String)
    (h : st.meta.any (fun m => m.submission_id = some s) = true) :
    incrementalUpdate env st s a t = st := by
  simp only [incrementalUpdate, h, if_true]

theorem incrementalUpdate_len (env : RunEnv) (st : VIState) (s a t : String)
    (h : st.index.length = st.meta.length) :
    (incrementalUpdate env st s a t).index.length =
      (incrementalUpdate env st s a t).meta.length := by
  by_cases hal : st.meta.any (fun m => m.submission_id = some s) = true
  · rw [incrementalUpdate_already env st s a t hal, h]
  · simp only [incrementalUpdate, Bool.not_eq_true] at hal ⊢
    rw [hal]
    simp [h]

/-- C2: starting from any state in which the number of stored vectors
equals the number of metadata rows (in particular the empty cold-start
state), any sequence of incremental inserts — each appending one vector and
one metadata row per chunk — preserves `len(vectors) == len(metadata)`. -/
theorem insert_preserves_len_invariant (env : RunEnv)
    (ops : List (String × String × String)) (st : VIState)
    (h : st.index.length = st.meta.length) :
    (ops.foldl (fun acc op => incrementalUpdate env acc op.1 op.2.1 op.2.2)
      st).index.length =
    (ops.foldl (fun acc op => incrementalUpdate env acc op.1 op.2.1 op.2.2)
      st).meta.length := by
  induction ops generalizing st with
  | nil => exact h
  | cons op ops ih =>
    exact ih _ (incrementalUpdate_len env st op.1 op.2.1 op.2.2 h)

/-- C3: the incremental insert is idempotent per submission id — it is a
no-op whenever the submission id is already present in the metadata, and
inserting the same submission twice leaves index and metadata identical to
their state after the first insert. -/
theorem insert_idempotent (env : RunEnv) (st : VIState) (s a t : String) :
    (st.meta.any (fun m => m.submission_id = some s) = true →
      incrementalUpdate env st s a t = st) ∧
    incrementalUpdate env (incrementalUpdate env st s a t) s a t =
      incrementalUpdate env st s a t := by
  refine ⟨incrementalUpdate_already env st s a t, ?_⟩
  by_cases hal : st.meta.any (fun m => m.submission_id = some s) = true
  · rw [incrementalUpdate_already env st s a t hal,
      incrementalUpdate_already env st s a t hal]
  · have hne := hal
    simp only [Bool.not_eq_true] at hne
    cases hc : chunkTextPT t env.chunkSizeWords env.chunkOverlapWords with
    | nil =>
      have hst : incrementalUpdate env st s a t = st := by
        simp only [incrementalUpdate, hne, if_false, hc, List.map_nil,
          List.append_nil]
        rfl
      rw [hst, hst]
    | cons c cs =>
      apply incrementalUpdate_already
      simp only [incrementalUpdate, hne, if_false, hc]
      rw [List.any_eq_true]
      refine ⟨{ submission_id := some s, assignment_id := some a }, ?_, by simp⟩
      exact List.mem_append.mpr (Or.inr (by simp))


/-- Witness for `insert_preserves_len_invariant`: one insert into the empty
cold-start state. -/
theorem insert_preserves_len_invariant_witness :
    (VIState.mk [] 1 []).index.length = (VIState.mk [] 1 []).meta.length ∧
    ([("s1", "A", "hello world")].foldl
      (fun acc op => incrementalUpdate exEnv acc op.1 op.2.1 op.2.2)
      (VIState.mk [] 1 [])).index.length =
    ([("s1", "A", "hello world")].foldl
      (fun acc op => incrementalUpdate exEnv acc op.1 op.2.1 op.2.2)
      (VIState.mk [] 1 [])).meta.length :=
  ⟨rfl, insert_preserves_len_invariant exEnv [("s1", "A", "hello world")]
    (VIState.mk [] 1 []) rfl⟩

/-- Witness for `insert_idempotent`: re-inserting a submission id already
present in the metadata is a no-op. -/
theorem insert_idempotent_witness :
    ((VIState.mk [[1]] 1 [⟨some "s1", some "A"⟩]).meta.any
      (fun m => m.submission_id = some "s1") = true) ∧
    incrementalUpdate exEnv (VIState.mk [[1]] 1 [⟨some "s1", some "A"⟩])
      "s1" "A" "hello" = VIState.mk [[1]] 1 [⟨some "s1", some "A"⟩] :=
  ⟨by decide,
    (insert_idempotent exEnv (VIState.mk [[1]] 1 [⟨some "s1", some "A"⟩])
      "s1" "A" "hello").1 (by decide)⟩

/-- C6: a submission whose text is empty or whitespace-only after
extraction makes `run_check` return exactly
`{similarity_score: 0.0, ai_probability: 0.0, matches: []}`, leave the
index untouched, and invoke no retrieval path (no vector search, no BM25
probe; the brute-force scan is disabled in the source altogether). -/
theorem run_check_empty_text (env : RunEnv) (st : VIState)
    (submission_id : String) (assignment_id : Option String) (text : String)
    (top_k : ℕ) (h : pyStrip text = "") :
    run_check env st submission_id assignment_id text top_k =
      (zeroResult, st, []) := by
  simp only [run_check, h, if_true]

/-- Witness for `run_check_empty_text` on the whitespace-only text `" \t "`. -/
theorem run_check_empty_text_witness :
    pyStrip " \t " = "" ∧
    run_check exEnv (VIState.mk [] 1 []) "s" (some "A") " \t " 5 =
      (zeroResult, VIState.mk [] 1 [], []) :=
  ⟨by decide, run_check_empty_text exEnv (VIState.mk [] 1 []) "s" (some "A")
    " \t " 5 (by decide)⟩

/-- C8: whenever `run_check` issues a raw ANN search, the breadth it
requests is `min(max(top_k * 50, 200, assignment_count * 50), total)`,
where `assignment_count` is the metadata count for the query's assignment
(zero when no assignment id was given) and `total` is the length of the
metadata array (equal to the index size under the C2 invariant). -/
theorem run_check_search_breadth (env : RunEnv) (st : VIState)
    (submission_id : String) (assignment_id : Option String) (text : String)
    (top_k k : ℕ)
    (h : RetrievalEvent.vectorSearch k ∈
      (run_check env st submission_id assignment_id text top_k).2.2) :
    k = min (max (max (top_k * 50) 200)
        ((if aidTruthy assignment_id = true then
          countAssign st.meta (assignment_id.getD "") else 0) * 50))
      st.meta.length := by
  simp only [run_check] at h
  by_cases hblank : pyStrip text = ""
  · rw [if_pos hblank] at h
    simp at h
  · rw [if_neg hblank] at h
    simp only at h
    by_cases hmeta : st.meta.isEmpty = true
    · rw [if_pos hmeta] at h
      simp at h
    · rw [if_neg hmeta] at h
      by_cases hskip : aidTruthy assignment_id = true ∧
          countAssign st.meta (assignment_id.getD "") = 0
      · rw [if_pos hskip] at h
        simp at h
      · rw [if_neg hskip] at h
        by_cases htr : aidTruthy assignment_id = true
        · simp only [htr, if_true, List.mem_append] at h ⊢
          rcases h with h | h
          · simp at h
            exact h
          · split at h <;> simp at h
        · have htr' : aidTruthy assignment_id = false := by simpa using htr
          simp only [htr', Bool.false_eq_true, if_false, List.mem_append] at h ⊢
          rcases h with h | h
          · simp at h
            simpa using h
          · split at h <;> simp at h

/-- Witness for `run_check_search_breadth`: a concrete `run_check` call over
a one-entry index that issues an ANN search of breadth
`min(max(5·50, 200, 1·50), 1) = 1`. -/
theorem run_check_search_breadth_witness :
    (RetrievalEvent.vectorSearch 1 ∈
      (run_check exEnv (VIState.mk [[1]] 1 [⟨some "a", some "A"⟩]) "q"
        (some "A") "x y" 5).2.2) ∧
    1 = min (max (max (5 * 50) 200)
        ((if aidTruthy (some "A") = true then
          countAssign [⟨some "a", some "A"⟩] ((some "A").getD "") else 0) * 50))
      (VIState.mk [[1]] 1 [⟨some "a", some "A"⟩]).meta.length :=
  ⟨by decide,
    run_check_search_breadth exEnv (VIState.mk [[1]] 1 [⟨some "a", some "A"⟩])
      "q" (some "A") "x y" 5 1 (by decide)⟩

theorem fuseFold_eq (fm : Option (List ℚ → ℚ)) (ai : ℚ) :
    ∀ (L : List (String × ℚ)) (acc : List (String × ℚ) × ℚ),
      L.foldl (fun acc c =>
        let sim_final := simFinal fm ai c.2
        (acc.1 ++ [(c.1, sim_final)], max acc.2 sim_final)) acc =
      (acc.1 ++ L.map (fun c => (c.1, simFinal fm ai c.2)),
       (L.map (fun c => simFinal fm ai c.2)).foldl max acc.2) := by
  intro L
  induction L with
  | nil => intro acc; simp
  | cons c cs ih =>
    intro acc
    rw [List.foldl_cons, ih]
    simp

/-- C7 (amended): when `run_check` has at least one candidate, the fusion
stage ranks the candidates by their *raw* FAISS score (descending), keeps
`top_k` of them (the caller's `top_k`, default 5 — not 10), and for each
one records the final score `simFinal` — the fused score unless that is
zero, in which case the raw FAISS score.  `similarity_score` is the maximum
of these final scores (not of the fused scores), and `matches` keeps the
raw-score traversal order, which need not be descending in the final
scores. -/
theorem fuseStage_final_scores (fm : Option (List ℚ → ℚ))
    (cands : List (String × ℚ)) (ai : ℚ) (top_k : ℕ) (h : cands ≠ []) :
    fuseStage fm cands ai top_k =
      (((sortDescBy Prod.snd cands).take top_k).map
        (fun c => (c.1, simFinal fm ai c.2)),
       (((sortDescBy Prod.snd cands).take top_k).map
        (fun c => simFinal fm ai c.2)).foldl max 0) := by
  have hne : cands.isEmpty = false := by
    cases cands with
    | nil => exact absurd rfl h
    | cons c cs => rfl
  simp only [fuseStage, hne, Bool.false_eq_true, if_false]
  rw [fuseFold_eq]
  simp

/-- Witness for `fuseStage_final_scores` on a single candidate. -/
theorem fuseStage_final_scores_witness :
    ([(("a" : String), (1 : ℚ)/2)] ≠ []) ∧
    fuseStage none [("a", 1/2)] 0 5 =
      (((sortDescBy Prod.snd [(("a" : String), (1 : ℚ)/2)]).take 5).map
        (fun c => (c.1, simFinal none 0 c.2)),
       (((sortDescBy Prod.snd [(("a" : String), (1 : ℚ)/2)]).take 5).map
        (fun c => simFinal none 0 c.2)).foldl max 0) :=
  ⟨by simp, fuseStage_final_scores none [("a", 1/2)] 0 5 (by simp)⟩



theorem cex_candidates :
    faissCandidates (fun _ => none)
      [⟨some "a", some "A"⟩, ⟨some "b", some "A"⟩] "q" (some "A")
      [((19 : ℚ)/6, 0), ((37 : ℚ)/13, 1)] 5 =
      [("b", 13/50), ("a", 6/25)] := by
  norm_num +decide [faissCandidates, faissStep, updateBest, lookupBest,
    sortDescBy, insertDescBy, sidOf, effAssign, optFalsy, aidTruthy]

theorem cex_fuse :
    fuseStage none [("b", 13/50), ("a", 6/25)] 1 5 =
      ([("b", 1/125), ("a", 6/25)], 6/25) := by
  norm_num +decide [fuseStage, sortDescBy, insertDescBy, simFinal,
    predict_fused_score, HEURISTIC_WEIGHTS]

theorem cex_run_check_result :
    (run_check cexEnv cexSt "q" (some "A") "x y" 5).1 =
      { similarity_score := 6/25, ai_probability := 1,
        «matches» := [("b", 1/125), ("a", 6/25)] } := by
  simp only [run_check]
  rw [if_neg (show ¬ pyStrip "x y" = "" by decide)]
  simp only [cexEnv, cexSt]
  norm_num +decide [adaptDim, countAssign, aidTruthy, optFalsy,
    cex_candidates, cex_fuse]

/-- C7 (counterexample): a concrete `run_check` call with two candidates
whose fused scores are `1/125` and `0`.  The returned `matches` are
`[("b", 1/125), ("a", 6/25)]` — ordered by raw FAISS score, *not*
descending in the reported similarity — and the returned
`similarity_score` is `6/25`, which is **not** the maximum (`1/125`) of the
per-candidate fused scores: the zero fused score of `"a"` was replaced by
its raw FAISS score through `sim_final = float(fused or faiss_score)`. -/
theorem run_check_matches_counterexample :
    (run_check cexEnv cexSt "q" (some "A") "x y" 5).1.«matches» =
      [("b", 1/125), ("a", 6/25)] ∧
    (run_check cexEnv cexSt "q" (some "A") "x y" 5).1.similarity_score = 6/25 ∧
    predict_fused_score none [13/50, 13/50, 0, 13/50, 1] = 1/125 ∧
    predict_fused_score none [6/25, 6/25, 0, 6/25, 1] = 0 ∧
    (6 : ℚ)/25 ≠ max (1/125) 0 ∧
    ¬ ((1 : ℚ)/125 ≥ 6/25) := by
  refine ⟨?_, ?_, ?_, ?_, by norm_num, by norm_num⟩
  · rw [cex_run_check_result]
  · rw [cex_run_check_result]
  · norm_num [predict_fused_score, HEURISTIC_WEIGHTS]
  · norm_num [predict_fused_score, HEURISTIC_WEIGHTS]

/-- C9 (counterexample): an index file present *without* its metadata file
is not fatal — `VectorIndex.load` raises `FileNotFoundError`, which
`get_vector_index` catches, silently recovering by initialising and
persisting an empty index (overwriting the orphan) instead of refusing to
serve. -/
theorem get_vector_index_orphan_recovered :
    VectorIndex.load (DiskState.mk (some (some ([[1]], 1))) none) =
      Except.error LoadError.fileNotFound ∧
    get_vector_index (DiskState.mk (some (some ([[1]], 1))) none) 1 =
      Except.ok ({ index := [], dim := 1, meta := [] },
        VectorIndex.save { index := [], dim := 1, meta := [] }) :=
  ⟨rfl, rfl⟩

/-- C9 (amended): `get_vector_index` recovers — by initialising and
persisting an empty index whose dimension comes from the probe encoding —
in *every* case where at least one of the two persisted files is missing
(`load` raises `FileNotFoundError` both when both are absent and when
exactly one is); it is fatal (the load error is surfaced) exactly when both
files are present and at least one is unreadable; and it serves the loaded
state when both are present and valid. -/
theorem get_vector_index_load_semantics (fs : DiskState) (d : ℕ) :
    ((fs.indexFile = none ∨ fs.metaFile = none) →
      get_vector_index fs d =
        Except.ok ({ index := [], dim := d, meta := [] },
          VectorIndex.save { index := [], dim := d, meta := [] })) ∧
    (∀ i m, fs.indexFile = some i → fs.metaFile = some m →
      (i = none ∨ m = none) →
      get_vector_index fs d = Except.error LoadError.readFailure) ∧
    (∀ iv mv, fs.indexFile = some (some iv) → fs.metaFile = some (some mv) →
      get_vector_index fs d =
        Except.ok ({ index := iv.1, dim := iv.2, meta := mv }, fs)) := by
  rcases fs with ⟨fi, fm⟩
  refine ⟨?_, ?_, ?_⟩
  · intro h
    rcases h with h | h
    · simp only at h
      subst h
      cases fm <;> rfl
    · simp only at h
      subst h
      cases fi with
      | none => rfl
      | some i => rfl
  · intro i m hi hm him
    simp only at hi hm
    subst hi
    subst hm
    rcases him with h | h
    · subst h
      cases m <;> rfl
    · subst h
      cases i <;> rfl
  · intro iv mv hi hm
    simp only at hi hm
    subst hi
    subst hm
    rfl

/-- Witness for `get_vector_index_load_semantics`: the cold-start state with
no persisted files is recovered as an empty index of the probe dimension. -/
theorem get_vector_index_load_semantics_witness :
    ((DiskState.mk none none).indexFile = none ∨
      (DiskState.mk none none).metaFile = none) ∧
    get_vector_index (DiskState.mk none none) 3 =
      Except.ok ({ index := [], dim := 3, meta := [] },
        VectorIndex.save { index := [], dim := 3, meta := [] }) :=
  ⟨Or.inl rfl,
    (get_vector_index_load_semantics (DiskState.mk none none) 3).1 (Or.inl rfl)⟩

theorem chunkWordsLoop_isSome (words : List String) (cs ov : ℤ)
    (h : ov < cs) :
    ∀ (fuel : ℕ) (i : ℤ), (words.length : ℤ) - i ≤ fuel →
      (chunkWordsLoop words cs ov i fuel).isSome = true := by
  intro fuel
  induction fuel with
  | zero =>
    intro i hf
    have hni : ¬ i < (words.length : ℤ) := by omega
    simp [chunkWordsLoop, hni]
  | succ fuel ih =>
    intro i hf
    by_cases hi : i < (words.length : ℤ)
    · have hrec := ih (i + (cs - ov)) (by omega)
      obtain ⟨v, hv⟩ := Option.isSome_iff_exists.mp hrec
      simp [chunkWordsLoop, hi, hv]
    · simp [chunkWordsLoop, hi]

theorem chunkWordsLoop_diverges (words : List String) (cs ov : ℤ)
    (h : cs ≤ ov) :
    ∀ (fuel : ℕ) (i : ℤ), i < (words.length : ℤ) →
      chunkWordsLoop words cs ov i fuel = none := by
  intro fuel
  induction fuel with
  | zero =>
    intro i hi
    simp [chunkWordsLoop, hi]
  | succ fuel ih =>
    intro i hi
    have hrec := ih (i + (cs - ov)) (by omega)
    simp only [chunkWordsLoop, hi, if_true, hrec, Option.map_none']

/-- C10: the word chunker of the AI detector terminates on every input
whenever `chunk_size > overlap` — `words.length` loop iterations always
suffice, because each iteration advances the index by the constant positive
step `chunk_size − overlap`; and the precondition is required: with
`chunk_size ≤ overlap` the unguarded step makes the loop diverge on every
text with at least one word (no amount of fuel completes it), unlike the
other two chunkers of the code base, whose steps are clamped to at least 1
(`chunkTextPT` here, and `chunk_text_with_char_indices` in `main.py`). -/
theorem chunk_text_words_terminates (chunk_size overlap : ℤ)
    (h : overlap < chunk_size) :
    (∀ text, (chunk_text_words text chunk_size overlap
      (pySplit text).length).isSome = true) ∧
    (∀ cs ov : ℤ, cs ≤ ov → ∀ text, pySplit text ≠ [] →
      ∀ fuel, chunk_text_words text cs ov fuel = none) := by
  constructor
  · intro text
    by_cases hw : (pySplit text).isEmpty = true
    · simp [chunk_text_words, hw]
    · simp only [chunk_text_words, hw, Bool.false_eq_true, if_false]
      exact chunkWordsLoop_isSome (pySplit text) chunk_size overlap h
        (pySplit text).length 0 (by omega)
  · intro cs ov hle text hw fuel
    have hw' : (pySplit text).isEmpty = false := by
      cases hpw : pySplit text with
      | nil => exact absurd hpw hw
      | cons a as => rfl
    have hlen : 0 < ((pySplit text).length : ℤ) := by
      cases hpw : pySplit text with
      | nil => exact absurd hpw hw
      | cons a as => simp
    simp only [chunk_text_words, hw', Bool.false_eq_true, if_false]
    exact chunkWordsLoop_diverges (pySplit text) cs ov hle fuel 0 hlen

/-- Witness for `chunk_text_words_terminates`: with `chunk_size = 2 >
overlap = 1` the chunker finishes on `"a b c"` within 3 iterations, while
`chunk_size = 3 ≤ overlap = 3` diverges on the same text. -/
theorem chunk_text_words_terminates_witness :
    ((1 : ℤ) < 2) ∧
    (chunk_text_words "a b c" 2 1 (pySplit "a b c").length).isSome = true ∧
    chunk_text_words "a b c" 3 3 5 = none :=
  ⟨by decide,
    (chunk_text_words_terminates 2 1 (by decide)).1 "a b c",
    (chunk_text_words_terminates 2 1 (by decide)).2 3 3 (by decide) "a b c"
      (by decide) 5⟩
